import Mathlib

/-!
Verification of `src/main2.py` (PdfSearcher): a shallow embedding of the
program's three components — the page text matcher (`search_pdf`), the
directory scanner (`search_and_open_pdfs`'s scan phase, here `scanPdfs`),
and the interactive opener (`open_pdfs` / `open_pdf_with_foxit`) — together
with theorems settling the specification's claims about them.

Modelling conventions:
* A PDF document, as seen through `pdfplumber.open` and page iteration, is a
  `PdfDoc`: either the open call fails, or it yields a list of per-page
  `extract_text` outcomes (an error, or the extracted text — `extract_text`
  returning `None` is modelled as the empty string, since the guard
  `if text and ...` treats `None` and `""` identically), possibly followed by
  an error raised by the page iteration itself after those pages.
* `re.search(term, text, re.IGNORECASE)` is modelled, for literal
  (metacharacter-free) search terms such as the program's fixed constant,
  as case-insensitive substring containment.
* The filesystem walk is modelled as the list of `(root, filename, doc)`
  triples that `os.walk` yields, in order; `os.path.join` as `root ++ "/" ++ name`.
* User interaction is modelled by an interpreter consuming a list of input
  lines and emitting a trace of observable events (prompts, messages,
  process launches).
-/

/-- One character-list starts with another (used to build substring search). -/
def startsWithL : List Char → List Char → Bool
  | [], _ => true
  | _ :: _, [] => false
  | a :: as, b :: bs => a == b && startsWithL as bs

/-- `containsSubL pat text`: `pat` occurs as a contiguous sublist of `text`. -/
def containsSubL (pat : List Char) : List Char → Bool
  | [] => pat.isEmpty
  | c :: cs => startsWithL pat (c :: cs) || containsSubL pat cs

/-- The characters of a string, lower-cased (model of Python `str.lower()`
restricted to the ASCII folding `Char.toLower` performs). -/
def lowerStr (s : String) : List Char := s.data.map Char.toLower

/-- Model of Python's `re.search(term, text, re.IGNORECASE)` for literal
(metacharacter-free) search terms: case-insensitive substring containment,
implemented by lower-casing both sides (mirroring `re.IGNORECASE` folding). -/
def re_searchIC (term text : String) : Bool :=
  containsSubL (lowerStr term) (lowerStr text)

/-- The outcome of `page.extract_text()` on one page: an extraction error
(caught by the inner `try`), or the extracted text (`None` modelled as `""`). -/
abbrev PageResult := Except String String

/-- A PDF as observed by `search_pdf`:
* `openFail`: `pdfplumber.open` raised (caught by the outer `try`);
* `ok pages iterFail`: the page iteration yielded `pages` (each page's
  `extract_text` outcome), and `iterFail` records an error raised by the
  iteration itself after those pages (also caught by the outer `try`). -/
inductive PdfDoc where
  | openFail (msg : String)
  | ok (pages : List PageResult) (iterFail : Option String)

/-- The body of `search_pdf`'s page loop (main2.py lines 69–76): for the page
at 0-based index `i`, append `i + 1` when `text and re.search(term, text,
re.IGNORECASE)` holds; a page whose extraction raised is logged and skipped. -/
def pageMatches (term : String) : PageResult → Bool
  | .error _ => false
  | .ok text => !text.isEmpty && re_searchIC term text

/-- The page loop of `search_pdf`, started at 0-based index `i`. -/
def searchPages (term : String) : Nat → List PageResult → List Nat
  | _, [] => []
  | i, pr :: rest =>
    if pageMatches term pr then (i + 1) :: searchPages term (i + 1) rest
    else searchPages term (i + 1) rest

/-- `search_pdf(pdf_path, search_term)` (main2.py lines 53–80): on open
failure the outer `except` logs and the accumulated (empty) `matches` is
returned; on an iteration failure after some pages, the outer `except`
catches it and the `matches` accumulated so far are returned. -/
def search_pdf (doc : PdfDoc) (term : String) : List Nat :=
  match doc with
  | .openFail _ => []
  | .ok pages _ => searchPages term 0 pages

theorem mem_searchPages (term : String) (pages : List PageResult) :
    ∀ i j, j ∈ searchPages term i pages ↔
      ∃ k, ∃ pr, pages.get? k = some pr ∧ pageMatches term pr = true ∧
        j = i + k + 1 := by
  induction pages with
  | nil =>
    intro i j
    simp [searchPages]
  | cons pr rest ih =>
    intro i j
    by_cases h : pageMatches term pr = true
    · simp only [searchPages, h, if_pos]
      constructor
      · intro hj
        rcases List.mem_cons.mp hj with hj | hj
        · exact ⟨0, pr, by simp, h, by omega⟩
        · rcases (ih (i + 1) j).mp hj with ⟨k, pr', hk, hm, hj'⟩
          exact ⟨k + 1, pr', by simpa using hk, hm, by omega⟩
      · rintro ⟨k, pr', hk, hm, rfl⟩
        cases k with
        | zero => simp
        | succ k' =>
          refine List.mem_cons.mpr (Or.inr ?_)
          refine (ih (i + 1) _).mpr ⟨k', pr', by simpa using hk, hm, by omega⟩
    · simp only [searchPages, h, if_neg, Bool.false_eq_true, not_false_iff]
      rw [ih (i + 1) j]
      constructor
      · rintro ⟨k, pr', hk, hm, rfl⟩
        exact ⟨k + 1, pr', by simpa using hk, hm, by omega⟩
      · rintro ⟨k, pr', hk, hm, rfl⟩
        cases k with
        | zero =>
          simp only [List.get?] at hk
          cases hk
          exact absurd hm (by simpa using h)
        | succ k' =>
          exact ⟨k', pr', by simpa using hk, hm, by omega⟩

/-- `filename.lower().endswith('.pdf')` (main2.py line 37). -/
def isPdfName (name : String) : Bool :=
  startsWithL (lowerStr ".pdf").reverse (lowerStr name).reverse

/-- Model of `os.path.join(root, filename)`, with `/` as separator. -/
def joinPath (root filename : String) : String := root ++ "/" ++ filename

/-- One regular file yielded by the `os.walk` traversal, in walk order: the
directory `root` containing it, its `filename`, and the document that
`search_pdf` observes if it opens the file as a PDF. -/
structure FSFile where
  root : String
  filename : String
  doc : PdfDoc

/-- The outcome of the scan phase of `search_and_open_pdfs`: the `results`
mapping (an association list in insertion order, standing for the Python
dict), `total_files`, and `files_with_matches`. -/
structure ScanOutcome where
  results : List (String × List Nat)
  total_files : Nat
  files_with_matches : Nat
deriving DecidableEq

/-- The scan loop of `search_and_open_pdfs` (main2.py lines 35–47): for each
file whose lower-cased name ends in `.pdf`, increment `total_files`, run
`search_pdf`, and when the returned list is non-empty record it under the
joined path and increment `files_with_matches`. Non-PDF files are untouched. -/
def scanPdfs (term : String) : List FSFile → ScanOutcome
  | [] => ⟨[], 0, 0⟩
  | f :: rest =>
    if isPdfName f.filename then
      let ms := search_pdf f.doc term
      let o := scanPdfs term rest
      if ms.isEmpty then ⟨o.results, o.total_files + 1, o.files_with_matches⟩
      else ⟨(joinPath f.root f.filename, ms) :: o.results,
            o.total_files + 1, o.files_with_matches + 1⟩
    else scanPdfs term rest

/-- Default Foxit Reader installation path (main2.py line 91). -/
def foxitPath1 : String :=
  "C:\\Program Files (x86)\\Foxit Software\\Foxit PDF Reader\\FoxitPDFReader.exe"

/-- Alternate Foxit Reader installation path (main2.py line 96). -/
def foxitPath2 : String :=
  "C:\\Program Files\\Foxit Software\\Foxit PDF Reader\\FoxitPDFReader.exe"

/-- Observable events of the interactive phase: printed messages, prompts
(one per `input()` call that consumes a line), and process launches. -/
inductive Ev where
  | noMatches
  | listFiles
  | promptSelection
  | promptPage (pages : List Nat)
  | viewerNotFound
  | spawn (command : List String)
  | opening (pdf_path : String) (page : Nat)
  | openFailed
  | invalidPage (pages : List Nat)
  | invalidPageInput
  | invalidChoice
  | invalidInput
deriving DecidableEq

/-- `open_pdf_with_foxit` (main2.py lines 82–111), parameterised by the
filesystem (`os.path.exists`) and by whether `subprocess.Popen` succeeds on a
given command. Returns the emitted events paired with the boolean return
value: probe `foxitPath1` then `foxitPath2`, first existing path wins; if
neither exists report `viewerNotFound` and return `false` with no process
started; otherwise run `[foxit_path, "/A", "page=<N>", pdf_path]`. -/
def open_pdf_with_foxit (fsExists : String → Bool) (popenOk : List String → Bool)
    (pdf_path : String) (page_number : Nat) : List Ev × Bool :=
  if fsExists foxitPath1 || fsExists foxitPath2 then
    let foxit_path := if fsExists foxitPath1 then foxitPath1 else foxitPath2
    let command := [foxit_path, "/A", "page=" ++ toString page_number, pdf_path]
    if popenOk command then ([Ev.spawn command, Ev.opening pdf_path page_number], true)
    else ([Ev.openFailed], false)
  else ([Ev.viewerNotFound], false)

/-- Model of Python `int(s)` on the inputs this program distinguishes: an
optional leading `-` followed by decimal digits parses, anything else raises
`ValueError` (modelled as `none`). -/
def digitsVal : List Char → Option Nat
  | [] => none
  | cs =>
    if cs.all Char.isDigit then
      some (cs.foldl (fun a c => a * 10 + (c.toNat - 48)) 0)
    else none

/-- `int(choice)` returning `none` where Python raises `ValueError`. -/
def parseInt (s : String) : Option Int :=
  match s.data with
  | '-' :: rest => (digitsVal rest).map fun n => -(n : Int)
  | cs => (digitsVal cs).map fun n => (n : Int)

/-- `choice.lower() == other`, via `lowerStr`. -/
def lowerEq (s other : String) : Bool := lowerStr s == lowerStr other

/-- Handling of one line read at the inner page prompt (main2.py lines
158–171): `all` opens the file once per matched page in ascending order; a
page number in the file's matched list opens exactly that page; a number not
in the list reports the invalid page; a non-number reports invalid input.
Control then falls through to the top of the outer `while` loop. -/
def handlePageChoice (fsExists : String → Bool) (popenOk : List String → Bool)
    (pdf_path : String) (pages : List Nat) (page_choice : String) : List Ev :=
  if lowerEq page_choice "all" then
    pages.flatMap fun page => (open_pdf_with_foxit fsExists popenOk pdf_path page).1
  else
    match parseInt page_choice with
    | none => [Ev.invalidPageInput]
    | some p =>
      if (pages.map fun m => (m : Int)).contains p then
        (open_pdf_with_foxit fsExists popenOk pdf_path p.toNat).1
      else [Ev.invalidPage pages]

/-- Where the next `input()` of the interactive loop happens: at the outer
file-selection prompt (main2.py line 135), or at the page prompt for a
selected multi-page file (line 158). -/
inductive Mode where
  | selecting
  | pagePrompt (pdf_path : String) (pages : List Nat)

/-- The interactive `while True` loop of `open_pdfs` (main2.py lines
134–175), as an interpreter over the remaining lines of user input: each
`input()` call emits its prompt event and consumes one line; when input is
exhausted the interaction ends at the pending `input()` call. In `selecting`
mode, `q` breaks; `all` opens each result file at its first matched page and
breaks; an integer selects a file — a single-page file opens directly,
a multi-page file moves to the inner page prompt (`pagePrompt` mode, the
nested `input()` on line 158) — and an out-of-range integer or non-integer
reports invalid and re-loops. The `pagePrompt` read handles its line via
`handlePageChoice` and control returns to the outer prompt. -/
def openLoop (fsExists : String → Bool) (popenOk : List String → Bool)
    (results : List (String × List Nat)) (pdf_list : List String) :
    Mode → List String → List Ev
  | _, [] => []
  | .pagePrompt pdf_path pages, page_choice :: rest =>
    Ev.promptPage pages ::
      (handlePageChoice fsExists popenOk pdf_path pages page_choice ++
        openLoop fsExists popenOk results pdf_list .selecting rest)
  | .selecting, choice :: rest =>
    Ev.promptSelection ::
    (if lowerEq choice "q" then []
     else if lowerEq choice "all" then
       results.flatMap fun pr =>
         if pr.2.isEmpty then []
         else (open_pdf_with_foxit fsExists popenOk pr.1 (pr.2.headD 0)).1
     else
       match parseInt choice with
       | none =>
         Ev.invalidInput :: openLoop fsExists popenOk results pdf_list .selecting rest
       | some n =>
         if 0 ≤ n - 1 ∧ n - 1 < (pdf_list.length : Int) then
           let pdf_path := pdf_list.getD (n - 1).toNat ""
           let pages := (List.lookup pdf_path results).getD []
           if pages.length == 1 then
             (open_pdf_with_foxit fsExists popenOk pdf_path (pages.headD 0)).1
               ++ openLoop fsExists popenOk results pdf_list .selecting rest
           else openLoop fsExists popenOk results pdf_list (.pagePrompt pdf_path pages) rest
         else
           Ev.invalidChoice :: openLoop fsExists popenOk results pdf_list .selecting rest)

/-- `open_pdfs(results)` (main2.py lines 113–175): empty results report
"No matches found." and return; otherwise the numbered file list is printed
once (`listFiles`) and the selection loop runs over the user's input lines,
with `pdf_list = list(results.keys())`. -/
def open_pdfs (fsExists : String → Bool) (popenOk : List String → Bool)
    (results : List (String × List Nat)) (inputs : List String) : List Ev :=
  if results.isEmpty then [Ev.noMatches]
  else Ev.listFiles :: openLoop fsExists popenOk results (results.map Prod.fst) .selecting inputs

/-- The viewer invocations recorded in a trace, in order. -/
def launches (trace : List Ev) : List (String × Nat) :=
  trace.filterMap fun e =>
    match e with
    | Ev.opening p n => some (p, n)
    | _ => none

/-- The number of pages the page iteration yields for a document. -/
def pageCount : PdfDoc → Nat
  | .openFail _ => 0
  | .ok pages _ => pages.length

/-- The per-page extraction outcomes a document yields. -/
def docPages : PdfDoc → List PageResult
  | .openFail _ => []
  | .ok pages _ => pages

theorem search_pdf_eq_searchPages (doc : PdfDoc) (term : String) :
    search_pdf doc term = searchPages term 0 (docPages doc) := by
  cases doc <;> rfl

theorem mem_search_pdf (doc : PdfDoc) (term : String) (j : Nat) :
    j ∈ search_pdf doc term ↔
      ∃ k pr, (docPages doc).get? k = some pr ∧ pageMatches term pr = true ∧
        j = k + 1 := by
  rw [search_pdf_eq_searchPages, mem_searchPages]
  constructor
  · rintro ⟨k, pr, hk, hm, rfl⟩; exact ⟨k, pr, hk, hm, by omega⟩
  · rintro ⟨k, pr, hk, hm, rfl⟩; exact ⟨k, pr, hk, hm, by omega⟩

theorem searchPages_sorted (term : String) :
    ∀ (pages : List PageResult) (i : Nat),
      List.Sorted (· < ·) (searchPages term i pages) := by
  intro pages
  induction pages with
  | nil => intro i; simp [searchPages]
  | cons pr rest ih =>
    intro i
    by_cases h : pageMatches term pr = true
    · simp only [searchPages, h, if_pos]
      refine List.sorted_cons.mpr ⟨?_, ih (i + 1)⟩
      intro b hb
      rcases (mem_searchPages term rest (i + 1) b).mp hb with ⟨k, pr', _, _, rfl⟩
      omega
    · simp only [searchPages, h, if_neg, Bool.false_eq_true, not_false_iff]
      exact ih (i + 1)

/-- C5: for every file, the page list returned by `search_pdf` is strictly
ascending and 1-based, every element lies within `[1, pageCount]` of that
file, and the empty sequence is returned exactly when no page matches. -/
theorem search_pdf_sorted_bounded (doc : PdfDoc) (term : String) :
    List.Sorted (· < ·) (search_pdf doc term) ∧
    (∀ j ∈ search_pdf doc term, 1 ≤ j ∧ j ≤ pageCount doc) ∧
    (search_pdf doc term = [] ↔
      ∀ k pr, (docPages doc).get? k = some pr → pageMatches term pr = false) := by
  refine ⟨?_, ?_, ?_⟩
  · rw [search_pdf_eq_searchPages]
    exact searchPages_sorted term (docPages doc) 0
  · intro j hj
    rcases (mem_search_pdf doc term j).mp hj with ⟨k, pr, hk, _, rfl⟩
    have hlen : k < (docPages doc).length := by
      by_contra hge
      rw [List.get?_eq_none.mpr (by omega)] at hk
      exact Option.noConfusion hk
    have : pageCount doc = (docPages doc).length := by cases doc <;> rfl
    omega
  · rw [List.eq_nil_iff_forall_not_mem]
    constructor
    · intro hnone k pr hk
      by_contra hm
      exact hnone (k + 1)
        ((mem_search_pdf doc term (k + 1)).mpr
          ⟨k, pr, hk, by simpa using hm, rfl⟩)
    · intro hall j hj
      rcases (mem_search_pdf doc term j).mp hj with ⟨k, pr, hk, hm, rfl⟩
      rw [hall k pr hk] at hm
      exact Bool.noConfusion hm

/-- C2: a page is reported matched by `search_pdf` iff its extracted text is
non-empty and contains a substring matching the term case-insensitively; in
particular `"foo"` matches text containing `"FOO"`, `"Foo"`, or `"fOo"`. -/
theorem page_matched_iff (pages : List PageResult) (iterFail : Option String)
    (term : String) (k : Nat) :
    ((k + 1) ∈ search_pdf (.ok pages iterFail) term ↔
      ∃ text, pages.get? k = some (.ok text) ∧ text ≠ "" ∧
        re_searchIC term text = true) ∧
    re_searchIC "foo" "see FOO here" = true ∧
    re_searchIC "foo" "Foo" = true ∧
    re_searchIC "foo" "fOo" = true ∧
    re_searchIC "foo" "bar" = false := by
  refine ⟨?_, by decide, by decide, by decide, by decide⟩
  rw [mem_search_pdf]
  constructor
  · rintro ⟨k', pr, hk, hm, hkk⟩
    have : k' = k := by omega
    subst this
    cases pr with
    | error e => exact absurd hm (by simp [pageMatches])
    | ok text =>
      simp only [pageMatches, Bool.and_eq_true, Bool.not_eq_true'] at hm
      refine ⟨text, hk, ?_, hm.2⟩
      intro hempty
      subst hempty
      rw [(String.isEmpty_iff "").mpr rfl] at hm
      exact Bool.noConfusion hm.1
  · rintro ⟨text, hk, hne, hre⟩
    refine ⟨k, .ok text, hk, ?_, rfl⟩
    simp only [pageMatches, Bool.and_eq_true, Bool.not_eq_true']
    refine ⟨?_, hre⟩
    rw [Bool.eq_false_iff]
    intro habs
    exact hne (String.isEmpty_iff text |>.mp habs)

/-- C6: a page whose text extraction raises is skipped — it never appears in
the matched-page list — and every later page that extracts and matches still
appears; a single bad page aborts neither the file nor the scan. -/
theorem error_page_skipped (pages : List PageResult) (iterFail : Option String)
    (term : String) (k : Nat) (e : String)
    (hk : pages.get? k = some (.error e)) :
    (k + 1) ∉ search_pdf (.ok pages iterFail) term ∧
    (∀ j pr, k < j → pages.get? j = some pr → pageMatches term pr = true →
      (j + 1) ∈ search_pdf (.ok pages iterFail) term) := by
  constructor
  · intro hmem
    rcases (mem_search_pdf _ term _).mp hmem with ⟨k', pr, hk', hm, hkk⟩
    have : k' = k := by omega
    subst this
    simp only [docPages] at hk'
    rw [hk] at hk'
    cases hk'
    exact absurd hm (by simp [pageMatches])
  · intro j pr _ hj hm
    exact (mem_search_pdf _ term _).mpr ⟨j, pr, hj, hm, rfl⟩

/-- Witness for C6 at a concrete document: page 1 errors and is absent, page
2 matches `"foo"` and is present. -/
theorem error_page_skipped_witness :
    (1 ∉ search_pdf (.ok [.error "boom", .ok "a foo page"] none) "foo") ∧
    2 ∈ search_pdf (.ok [.error "boom", .ok "a foo page"] none) "foo" :=
  ⟨(error_page_skipped [.error "boom", .ok "a foo page"] none "foo" 0 "boom" rfl).1,
   (error_page_skipped [.error "boom", .ok "a foo page"] none "foo" 0 "boom" rfl).2
     1 (.ok "a foo page") (by decide) rfl (by decide)⟩

/-- C7: a PDF that cannot be opened yields the empty list from `search_pdf`,
and the scan loop moves on to the remaining files unchanged (the file only
increments `total_files`); a file-open failure is never fatal to the scan. -/
theorem open_fail_file_skipped (term msg : String) (f : FSFile)
    (rest : List FSFile) (hdoc : f.doc = .openFail msg)
    (hpdf : isPdfName f.filename = true) :
    search_pdf f.doc term = [] ∧
    scanPdfs term (f :: rest) =
      ⟨(scanPdfs term rest).results, (scanPdfs term rest).total_files + 1,
       (scanPdfs term rest).files_with_matches⟩ := by
  have hempty : search_pdf f.doc term = [] := by rw [hdoc]; rfl
  refine ⟨hempty, ?_⟩
  simp only [scanPdfs, hpdf, if_pos, hempty, List.isEmpty_nil, if_true]

/-- Witness for C7 at a concrete scan: one unreadable PDF followed by one
matching PDF; the scan still records the second file. -/
theorem open_fail_file_skipped_witness :
    search_pdf (PdfDoc.openFail "corrupt") "foo" = [] ∧
    scanPdfs "foo" [⟨"r", "bad.pdf", .openFail "corrupt"⟩,
                    ⟨"r", "good.pdf", .ok [.ok "foo"] none⟩] =
      ⟨[("r/good.pdf", [1])], 2, 1⟩ := by
  have h := open_fail_file_skipped "foo" "corrupt" ⟨"r", "bad.pdf", .openFail "corrupt"⟩
    [⟨"r", "good.pdf", .ok [.ok "foo"] none⟩] rfl (by decide)
  exact ⟨h.1, by rw [h.2]; decide⟩

/-- C10: `search_pdf` never propagates an error (it is total on every
`PdfDoc`); when the page iteration fails after some pages were examined, the
pages matched before the failure are returned — a partial, possibly
non-empty result rather than the empty sequence. -/
theorem search_pdf_partial_on_iter_fail (pages : List PageResult) (e : String)
    (term : String) :
    search_pdf (.ok pages (some e)) term = searchPages term 0 pages ∧
    search_pdf (.ok pages (some e)) term = search_pdf (.ok pages none) term ∧
    (searchPages term 0 pages ≠ [] → search_pdf (.ok pages (some e)) term ≠ []) ∧
    search_pdf (.ok [.ok "a foo page", .ok "bar"] (some "iteration failed")) "foo"
      = [1] :=
  ⟨rfl, rfl, fun h => h, by decide⟩

/-- Witness for C10 at a concrete document: an iteration failure after one
matching page still yields the non-empty partial result. -/
theorem search_pdf_partial_on_iter_fail_witness :
    search_pdf (.ok [.ok "foo"] (some "broken iterator")) "foo" ≠ [] :=
  (search_pdf_partial_on_iter_fail [.ok "foo"] "broken iterator" "foo").2.2.1
    (by decide)

theorem mem_scan_results (term : String) :
    ∀ (files : List FSFile) (p : String) (ms : List Nat),
      (p, ms) ∈ (scanPdfs term files).results →
      ms ≠ [] ∧ ∃ f ∈ files, isPdfName f.filename = true ∧
        p = joinPath f.root f.filename ∧ ms = search_pdf f.doc term := by
  intro files
  induction files with
  | nil => intro p ms h; simp [scanPdfs] at h
  | cons f rest ih =>
    intro p ms h
    by_cases hpdf : isPdfName f.filename
    · by_cases hms : (search_pdf f.doc term).isEmpty
      · simp only [scanPdfs, hpdf, if_pos, hms, if_true] at h
        rcases ih p ms h with ⟨hne, g, hg, hker⟩
        exact ⟨hne, g, List.mem_cons_of_mem f hg, hker⟩
      · simp only [scanPdfs, hpdf, if_pos, hms, if_false] at h
        rcases List.mem_cons.mp h with h | h
        · cases h
          refine ⟨?_, f, List.mem_cons_self f rest, hpdf, rfl, rfl⟩
          intro habs
          rw [habs] at hms
          exact hms rfl
        · rcases ih p ms h with ⟨hne, g, hg, hker⟩
          exact ⟨hne, g, List.mem_cons_of_mem f hg, hker⟩
    · simp only [scanPdfs, hpdf, if_neg, not_false_iff] at h
      rcases ih p ms h with ⟨hne, g, hg, hker⟩
      exact ⟨hne, g, List.mem_cons_of_mem f hg, hker⟩

theorem scan_results_complete (term : String) :
    ∀ (files : List FSFile) (f : FSFile), f ∈ files →
      isPdfName f.filename = true → search_pdf f.doc term ≠ [] →
      joinPath f.root f.filename ∈ (scanPdfs term files).results.map Prod.fst := by
  intro files
  induction files with
  | nil => intro f hf; simp at hf
  | cons g rest ih =>
    intro f hf hpdf hne
    rcases List.mem_cons.mp hf with rfl | hf
    · have hms : (search_pdf f.doc term).isEmpty = false := by
        rw [Bool.eq_false_iff]
        intro habs
        exact hne (List.isEmpty_iff.mp habs)
      simp only [scanPdfs, hpdf, if_pos, hms, Bool.false_eq_true, if_false,
        List.map_cons, List.mem_cons]
      exact Or.inl trivial
    · have hmem := ih f hf hpdf hne
      by_cases hgpdf : isPdfName g.filename
      · by_cases hgms : (search_pdf g.doc term).isEmpty
        · simpa only [scanPdfs, hgpdf, if_pos, hgms, if_true] using hmem
        · simp only [scanPdfs, hgpdf, if_pos, hgms, if_false, List.map_cons,
            List.mem_cons]
          right
          exact hmem
      · simpa only [scanPdfs, hgpdf, if_neg, not_false_iff] using hmem

/-- C1: a file path appears as a key of the scan's result mapping iff its
matched-page list is non-empty — every recorded entry has a non-empty page
list, and every scanned PDF whose `search_pdf` result is non-empty is
recorded under its joined path. -/
theorem scan_key_iff_nonempty (term : String) (files : List FSFile) :
    (∀ p ms, (p, ms) ∈ (scanPdfs term files).results → ms ≠ []) ∧
    (∀ f ∈ files, isPdfName f.filename = true → search_pdf f.doc term ≠ [] →
      joinPath f.root f.filename ∈ (scanPdfs term files).results.map Prod.fst) :=
  ⟨fun p ms h => (mem_scan_results term files p ms h).1,
   fun f hf => scan_results_complete term files f hf⟩

/-- Witness for C1 at a concrete scan: the matching file's path is a key
with a non-empty page list. -/
theorem scan_key_iff_nonempty_witness :
    ([1] ≠ ([] : List Nat)) ∧
    "r/good.pdf" ∈
      (scanPdfs "foo" [⟨"r", "good.pdf", .ok [.ok "foo"] none⟩]).results.map
        Prod.fst :=
  ⟨(scan_key_iff_nonempty "foo" [⟨"r", "good.pdf", .ok [.ok "foo"] none⟩]).1
     "r/good.pdf" [1] (by decide),
   (scan_key_iff_nonempty "foo" [⟨"r", "good.pdf", .ok [.ok "foo"] none⟩]).2
     ⟨"r", "good.pdf", .ok [.ok "foo"] none⟩ (List.mem_cons_self _ _)
     (by decide) (by decide)⟩

/-- The spec's scan scenario: `a.pdf` (3 pages, `"invoice"` matches on pages
1 and 3), `b.pdf` (2 pages, no match), `notes.txt` (wrong extension). -/
def scenarioFiles : List FSFile :=
  [⟨"root", "a.pdf",
    .ok [.ok "Invoice one", .ok "nothing here", .ok "INVOICE three"] none⟩,
   ⟨"root", "b.pdf", .ok [.ok "alpha", .ok "beta"] none⟩,
   ⟨"root", "notes.txt", .ok [.ok "invoice"] none⟩]

/-- C8: the scan considers exactly the files whose names end in `.pdf`
case-insensitively: `total_files` counts every such file regardless of
outcome, `files_with_matches` counts exactly those with a non-empty match
list, every result key comes from such a file, and the spec's scenario
yields `{root/a.pdf: [1, 3]}` with 2 files scanned and 1 with matches. -/
theorem scan_counts (term : String) (files : List FSFile) :
    (scanPdfs term files).total_files =
      files.countP (fun f => isPdfName f.filename) ∧
    (scanPdfs term files).files_with_matches =
      files.countP
        (fun f => isPdfName f.filename && !(search_pdf f.doc term).isEmpty) ∧
    (∀ p ∈ (scanPdfs term files).results.map Prod.fst,
      ∃ f ∈ files, isPdfName f.filename = true ∧
        p = joinPath f.root f.filename) ∧
    scanPdfs "invoice" scenarioFiles = ⟨[("root/a.pdf", [1, 3])], 2, 1⟩ := by
  refine ⟨?_, ?_, ?_, by decide⟩
  · induction files with
    | nil => rfl
    | cons f rest ih =>
      by_cases hpdf : isPdfName f.filename
      · by_cases hms : (search_pdf f.doc term).isEmpty
        · simp [scanPdfs, hpdf, hms, List.countP_cons, ih]
        · simp [scanPdfs, hpdf, hms, List.countP_cons, ih]
      · simp [scanPdfs, hpdf, List.countP_cons, ih]
  · induction files with
    | nil => rfl
    | cons f rest ih =>
      by_cases hpdf : isPdfName f.filename
      · by_cases hms : (search_pdf f.doc term).isEmpty
        · simp [scanPdfs, hpdf, hms, List.countP_cons, ih]
        · simp [scanPdfs, hpdf, hms, List.countP_cons, ih]
      · simp [scanPdfs, hpdf, List.countP_cons, ih]
  · intro p hp
    rcases List.mem_map.mp hp with ⟨⟨p', ms⟩, hmem, hp'⟩
    rcases mem_scan_results term files p' ms hmem with ⟨_, f, hf, hpdf, hjoin, _⟩
    exact ⟨f, hf, hpdf, hp' ▸ hjoin⟩

theorem open_with_foxit_found1 (fsExists : String → Bool)
    (popenOk : List String → Bool) (pdf_path : String) (page_number : Nat)
    (hfs : fsExists foxitPath1 = true) (hok : ∀ c, popenOk c = true) :
    open_pdf_with_foxit fsExists popenOk pdf_path page_number =
      ([Ev.spawn [foxitPath1, "/A", "page=" ++ toString page_number, pdf_path],
        Ev.opening pdf_path page_number], true) := by
  simp [open_pdf_with_foxit, hfs, hok]

theorem open_with_foxit_notfound (fsExists : String → Bool)
    (popenOk : List String → Bool) (pdf_path : String) (page_number : Nat)
    (h1 : fsExists foxitPath1 = false) (h2 : fsExists foxitPath2 = false) :
    open_pdf_with_foxit fsExists popenOk pdf_path page_number =
      ([Ev.viewerNotFound], false) := by
  simp [open_pdf_with_foxit, h1, h2]

theorem launches_cons_skip (e : Ev) (trace : List Ev)
    (h : ∀ p n, e ≠ Ev.opening p n) :
    launches (e :: trace) = launches trace := by
  cases e <;> simp_all [launches, List.filterMap_cons]

theorem launches_spawn_open (cmd : String × List Nat → List String) :
    ∀ l : List (String × List Nat),
      launches (l.flatMap fun pr =>
        [Ev.spawn (cmd pr), Ev.opening pr.1 (pr.2.headD 0)]) =
      l.map fun pr => (pr.1, pr.2.headD 0) := by
  intro l
  induction l with
  | nil => rfl
  | cons pr rest ih =>
    simp only [List.flatMap_cons, List.map_cons, launches, List.filterMap_append,
      List.filterMap_cons] at ih ⊢
    simpa using ih

theorem flatMap_open_all (fsExists : String → Bool) (popenOk : List String → Bool)
    (hfs : fsExists foxitPath1 = true) (hok : ∀ c, popenOk c = true) :
    ∀ results : List (String × List Nat), (∀ pr ∈ results, pr.2 ≠ []) →
      (results.flatMap fun pr =>
        if pr.2.isEmpty then []
        else (open_pdf_with_foxit fsExists popenOk pr.1 (pr.2.headD 0)).1) =
      results.flatMap fun pr =>
        [Ev.spawn [foxitPath1, "/A", "page=" ++ toString (pr.2.headD 0), pr.1],
         Ev.opening pr.1 (pr.2.headD 0)] := by
  intro results
  induction results with
  | nil => intro _; rfl
  | cons pr rest ih =>
    intro hpages
    have hpr : pr.2.isEmpty = false := by
      rw [Bool.eq_false_iff]
      intro habs
      exact hpages pr (List.mem_cons_self pr rest) (List.isEmpty_iff.mp habs)
    simp only [List.flatMap_cons, hpr, Bool.false_eq_true, if_false,
      open_with_foxit_found1 fsExists popenOk pr.1 (pr.2.headD 0) hfs hok,
      ih fun q hq => hpages q (List.mem_cons_of_mem pr hq)]

/-- C3: entering `all` at the file-selection prompt launches the viewer
exactly once per file in the result, each time at that file's first matched
page, and then exits the interaction loop (the trace is independent of any
remaining input). -/
theorem open_all_first_pages (fsExists : String → Bool)
    (popenOk : List String → Bool) (results : List (String × List Nat))
    (inputs : List String) (hfs : fsExists foxitPath1 = true)
    (hok : ∀ c, popenOk c = true) (hne : results ≠ [])
    (hpages : ∀ pr ∈ results, pr.2 ≠ []) :
    open_pdfs fsExists popenOk results ("all" :: inputs) =
      Ev.listFiles :: Ev.promptSelection ::
        (results.flatMap fun pr =>
          [Ev.spawn [foxitPath1, "/A", "page=" ++ toString (pr.2.headD 0), pr.1],
           Ev.opening pr.1 (pr.2.headD 0)]) ∧
    launches (open_pdfs fsExists popenOk results ("all" :: inputs)) =
      results.map fun pr => (pr.1, pr.2.headD 0) := by
  have hempty : results.isEmpty = false := by
    rw [Bool.eq_false_iff]
    intro habs
    exact hne (List.isEmpty_iff.mp habs)
  have hq : lowerEq "all" "q" = false := by decide
  have hall : lowerEq "all" "all" = true := by decide
  have hloop : openLoop fsExists popenOk results (List.map Prod.fst results)
      .selecting ("all" :: inputs) =
      Ev.promptSelection ::
        (results.flatMap fun pr =>
          if pr.2.isEmpty then []
          else (open_pdf_with_foxit fsExists popenOk pr.1 (pr.2.headD 0)).1) := rfl
  have htrace : open_pdfs fsExists popenOk results ("all" :: inputs) =
      Ev.listFiles :: Ev.promptSelection ::
        (results.flatMap fun pr =>
          [Ev.spawn [foxitPath1, "/A", "page=" ++ toString (pr.2.headD 0), pr.1],
           Ev.opening pr.1 (pr.2.headD 0)]) := by
    simp only [open_pdfs, hempty, Bool.false_eq_true, if_false]
    rw [hloop, flatMap_open_all fsExists popenOk hfs hok results hpages]
  refine ⟨htrace, ?_⟩
  rw [htrace, launches_cons_skip _ _ (by intro p n h; cases h),
    launches_cons_skip _ _ (by intro p n h; cases h),
    launches_spawn_open (fun pr => [foxitPath1, "/A",
      "page=" ++ toString (pr.2.headD 0), pr.1]) results]

/-- Witness for C3 at the spec's example `{a.pdf: [1, 3], c.pdf: [2]}`:
exactly two viewer invocations, `a.pdf` at page 1 and `c.pdf` at page 2. -/
theorem open_all_first_pages_witness :
    launches (open_pdfs (fun _ => true) (fun _ => true)
        [("a.pdf", [1, 3]), ("c.pdf", [2])] ["all"]) =
      [("a.pdf", 1), ("c.pdf", 2)] := by
  have h := (open_all_first_pages (fun _ => true) (fun _ => true)
    [("a.pdf", [1, 3]), ("c.pdf", [2])] [] rfl (fun _ => rfl) (by decide)
    (by decide)).2
  exact h.trans (by decide)

/-- Counterexample to C4: with result `{x.pdf: [2, 5, 9]}` and inputs
`1`, `7`, `5` — after the invalid page `7` is reported, the next prompt is
the outer file-selection prompt, not a page prompt (no page prompt occurs
again in the trace), and the subsequent `5` is read as a file index
(invalid choice), so no launch at page 5 happens. -/
theorem invalid_page_reprompts_page_cex :
    open_pdfs (fun _ => true) (fun _ => true) [("x.pdf", [2, 5, 9])]
        ["1", "7", "5"] =
      [Ev.listFiles, Ev.promptSelection, Ev.promptPage [2, 5, 9],
       Ev.invalidPage [2, 5, 9], Ev.promptSelection, Ev.invalidChoice] ∧
    Ev.opening "x.pdf" 5 ∉ open_pdfs (fun _ => true) (fun _ => true)
      [("x.pdf", [2, 5, 9])] ["1", "7", "5"] ∧
    Ev.promptPage [2, 5, 9] ∉
      (open_pdfs (fun _ => true) (fun _ => true) [("x.pdf", [2, 5, 9])]
        ["1", "7", "5"]).drop 3 := by decide

/-- C4 (amended): after selecting a file with several matched pages,
entering a page number not in its matched list reports the invalid page and
control returns to the outer file-selection prompt — the files are not
re-listed and the outer loop continues with the remaining input; entering a
page number in the list launches exactly one viewer invocation at that page
and the outer loop likewise continues. -/
theorem invalid_page_returns_to_selection (fsExists : String → Bool)
    (popenOk : List String → Bool) (results : List (String × List Nat))
    (s pc : String) (n p : Int) (pdf_path : String) (pages : List Nat)
    (rest : List String)
    (hq : lowerEq s "q" = false) (hall : lowerEq s "all" = false)
    (hs : parseInt s = some n)
    (hlo : 0 ≤ n - 1) (hhi : n - 1 < (results.length : Int))
    (hsel : (results.map Prod.fst).getD (n - 1).toNat "" = pdf_path)
    (hlk : List.lookup pdf_path results = some pages)
    (hlen : pages.length ≠ 1)
    (hpcall : lowerEq pc "all" = false)
    (hpc : parseInt pc = some p)
    (hfs : fsExists foxitPath1 = true) (hok : ∀ c, popenOk c = true) :
    ((pages.map fun m => (m : Int)).contains p = false →
      openLoop fsExists popenOk results (results.map Prod.fst) .selecting
          (s :: pc :: rest) =
        Ev.promptSelection :: Ev.promptPage pages :: Ev.invalidPage pages ::
          openLoop fsExists popenOk results (results.map Prod.fst) .selecting
            rest) ∧
    ((pages.map fun m => (m : Int)).contains p = true →
      openLoop fsExists popenOk results (results.map Prod.fst) .selecting
          (s :: pc :: rest) =
        Ev.promptSelection :: Ev.promptPage pages ::
          Ev.spawn [foxitPath1, "/A", "page=" ++ toString p.toNat, pdf_path] ::
          Ev.opening pdf_path p.toNat ::
            openLoop fsExists popenOk results (results.map Prod.fst) .selecting
              rest) := by
  have hcond : (0 ≤ n - 1 ∧ n - 1 < ((results.map Prod.fst).length : Int)) :=
    ⟨hlo, by simpa using hhi⟩
  have hlen' : (pages.length == 1) = false := by simp [hlen]
  constructor
  · intro hcont
    simp only [openLoop, hq, hall, Bool.false_eq_true, if_false, hs,
      if_pos hcond, hsel, hlk, Option.getD_some, hlen', handlePageChoice,
      hpcall, hpc, hcont]
    simp
  · intro hcont
    simp only [openLoop, hq, hall, Bool.false_eq_true, if_false, hs,
      if_pos hcond, hsel, hlk, Option.getD_some, hlen', handlePageChoice,
      hpcall, hpc, hcont,
      open_with_foxit_found1 fsExists popenOk pdf_path p.toNat hfs hok]
    simp

/-- Witness for the amended C4 at matched pages `[2, 5, 9]`: entering page
`7` reports the invalid page and returns to the outer prompt; entering page
`5` launches exactly one invocation at page 5. -/
theorem invalid_page_returns_to_selection_witness :
    openLoop (fun _ => true) (fun _ => true) [("x.pdf", [2, 5, 9])] ["x.pdf"]
        .selecting ["1", "7"] =
      [Ev.promptSelection, Ev.promptPage [2, 5, 9],
       Ev.invalidPage [2, 5, 9]] ∧
    openLoop (fun _ => true) (fun _ => true) [("x.pdf", [2, 5, 9])] ["x.pdf"]
        .selecting ["1", "5"] =
      [Ev.promptSelection, Ev.promptPage [2, 5, 9],
       Ev.spawn [foxitPath1, "/A", "page=5", "x.pdf"],
       Ev.opening "x.pdf" 5] := by
  constructor
  · have h := (invalid_page_returns_to_selection (fun _ => true) (fun _ => true)
      [("x.pdf", [2, 5, 9])] "1" "7" 1 7 "x.pdf" [2, 5, 9] [] (by decide)
      (by decide) rfl (by decide) (by decide) rfl rfl (by decide) (by decide)
      rfl rfl (fun _ => rfl)).1 (by decide)
    exact h.trans (by decide)
  · have h := (invalid_page_returns_to_selection (fun _ => true) (fun _ => true)
      [("x.pdf", [2, 5, 9])] "1" "5" 1 5 "x.pdf" [2, 5, 9] [] (by decide)
      (by decide) rfl (by decide) (by decide) rfl rfl (by decide) (by decide)
      rfl rfl (fun _ => rfl)).2 (by decide)
    exact h.trans (by decide)

/-- C9: the viewer executable is resolved by probing the two fixed install
paths in order, the first existing path winning, and on success the viewer
is launched with arguments `<exe> /A page=<N> <pdf_path>`; if neither path
exists, "viewer not found" is reported, no process is started (no `spawn` or
`opening` event), and the interactive loop continues with the remaining
input. -/
theorem foxit_resolution (fsExists : String → Bool)
    (popenOk : List String → Bool) (pdf_path : String) (page_number : Nat) :
    (fsExists foxitPath1 = true → (∀ c, popenOk c = true) →
      open_pdf_with_foxit fsExists popenOk pdf_path page_number =
        ([Ev.spawn [foxitPath1, "/A", "page=" ++ toString page_number,
            pdf_path],
          Ev.opening pdf_path page_number], true)) ∧
    (fsExists foxitPath1 = false → fsExists foxitPath2 = true →
      (∀ c, popenOk c = true) →
      open_pdf_with_foxit fsExists popenOk pdf_path page_number =
        ([Ev.spawn [foxitPath2, "/A", "page=" ++ toString page_number,
            pdf_path],
          Ev.opening pdf_path page_number], true)) ∧
    (fsExists foxitPath1 = false → fsExists foxitPath2 = false →
      open_pdf_with_foxit fsExists popenOk pdf_path page_number =
        ([Ev.viewerNotFound], false) ∧
      launches (open_pdf_with_foxit fsExists popenOk pdf_path page_number).1
        = [] ∧
      (∀ (results : List (String × List Nat)) (s : String) (n : Int)
          (rest : List String),
        lowerEq s "q" = false → lowerEq s "all" = false →
        parseInt s = some n → 0 ≤ n - 1 → n - 1 < (results.length : Int) →
        (results.map Prod.fst).getD (n - 1).toNat "" = pdf_path →
        List.lookup pdf_path results = some [page_number] →
        openLoop fsExists popenOk results (results.map Prod.fst) .selecting
            (s :: rest) =
          Ev.promptSelection :: Ev.viewerNotFound ::
            openLoop fsExists popenOk results (results.map Prod.fst)
              .selecting rest)) := by
  refine ⟨?_, ?_, ?_⟩
  · intro hfs hok
    exact open_with_foxit_found1 fsExists popenOk pdf_path page_number hfs hok
  · intro h1 h2 hok
    simp [open_pdf_with_foxit, h1, h2, hok]
  · intro h1 h2
    have hnf := open_with_foxit_notfound fsExists popenOk pdf_path page_number
      h1 h2
    refine ⟨hnf, by rw [hnf]; rfl, ?_⟩
    intro results s n rest hq hall hs hlo hhi hsel hlk
    have hcond : (0 ≤ n - 1 ∧ n - 1 < ((results.map Prod.fst).length : Int)) :=
      ⟨hlo, by simpa using hhi⟩
    simp only [openLoop, hq, hall, Bool.false_eq_true, if_false, hs,
      if_pos hcond, hsel, hlk, Option.getD_some, List.length_cons,
      List.length_nil]
    simp [hnf]

/-- Witness for C9: with no install path present, the open action reports
"viewer not found", starts nothing, and the loop continues (a following
input line is still prompted for and processed). -/
theorem foxit_resolution_witness :
    open_pdf_with_foxit (fun _ => false) (fun _ => true) "a.pdf" 3 =
      ([Ev.viewerNotFound], false) ∧
    openLoop (fun _ => false) (fun _ => true) [("a.pdf", [3])] ["a.pdf"]
        .selecting ["1", "zzz"] =
      [Ev.promptSelection, Ev.viewerNotFound, Ev.promptSelection,
       Ev.invalidInput] := by
  have h := (foxit_resolution (fun _ => false) (fun _ => true) "a.pdf" 3).2.2
    rfl rfl
  refine ⟨h.1, ?_⟩
  have h2 := h.2.2 [("a.pdf", [3])] "1" 1 ["zzz"] (by decide) (by decide) rfl
    (by decide) (by decide) rfl rfl
  exact h2.trans (by decide)

/-- Witness for C2 at a concrete page: page 2 whose text contains `"FOO"`
is matched by the term `"foo"`. -/
theorem page_matched_iff_witness :
    2 ∈ search_pdf (.ok [.ok "x", .ok "a FOO b"] none) "foo" :=
  (page_matched_iff [.ok "x", .ok "a FOO b"] none "foo" 1).1.mpr
    ⟨"a FOO b", rfl, by decide, by decide⟩

/-- Witness for C5 at a concrete document with pages `[1, 3]` matched: the
list is sorted and page 3 lies within `[1, pageCount]`. -/
theorem search_pdf_sorted_bounded_witness :
    List.Sorted (· < ·)
      (search_pdf (.ok [.ok "a foo", .error "e", .ok "b FOO"] none) "foo") ∧
    (1 ≤ 3 ∧
      3 ≤ pageCount (.ok [.ok "a foo", .error "e", .ok "b FOO"] none)) :=
  ⟨(search_pdf_sorted_bounded
      (.ok [.ok "a foo", .error "e", .ok "b FOO"] none) "foo").1,
   (search_pdf_sorted_bounded
      (.ok [.ok "a foo", .error "e", .ok "b FOO"] none) "foo").2.1 3
     (by decide)⟩

/-- Witness for C8 on the spec's scenario: 2 PDF files scanned, 1 with
matches. -/
theorem scan_counts_witness :
    (scanPdfs "invoice" scenarioFiles).total_files = 2 ∧
    (scanPdfs "invoice" scenarioFiles).files_with_matches = 1 :=
  ⟨(scan_counts "invoice" scenarioFiles).1.trans (by decide),
   (scan_counts "invoice" scenarioFiles).2.1.trans (by decide)⟩
